import Mathlib

/-!
Shallow embedding of the r2pilot core crate (crates/core/src): the multipart
upload loop of `R2Client::upload_file_multipart` (client.rs), configuration
validation `validate_config` (config.rs), presigned-URL generation
(client.rs and presigned.rs), and `R2Client::delete_objects` (client.rs).

Files are modelled as lists of bytes (`List Nat`); the S3 backend is an
oracle (`Env`) giving the outcome of each remote call; every remote call the
client issues is recorded in an event trace.
-/

namespace R2Pilot

/-- Error categories of `crates/core/src/error.rs` that the modelled
functions construct or propagate. -/
inductive RError where
  | io (msg : String)
  | multipartUpload (msg : String)
  | r2Operation (msg : String)
  | invalidConfig (msg : String)
  | config (msg : String)
  | invalidInput (msg : String)
  | presignedUrlConfig (msg : String)
  deriving DecidableEq, Repr

instance {ε α : Type} [DecidableEq ε] [DecidableEq α] : DecidableEq (Except ε α) := fun a b =>
  match a, b with
  | .ok x, .ok y =>
    if h : x = y then .isTrue (by rw [h]) else .isFalse (by intro hc; cases hc; exact h rfl)
  | .error x, .error y =>
    if h : x = y then .isTrue (by rw [h]) else .isFalse (by intro hc; cases hc; exact h rfl)
  | .ok _, .error _ => .isFalse (fun hc => Except.noConfusion hc)
  | .error _, .ok _ => .isFalse (fun hc => Except.noConfusion hc)

/-- One remote call issued by the client during a multipart upload:
`CreateMultipartUpload`, `UploadPart` (with its part number and body),
`CompleteMultipartUpload` (with the collected part list), or
`AbortMultipartUpload`. -/
inductive Event where
  | createUpload
  | uploadPart (partNumber : Nat) (body : List Nat)
  | completeUpload (parts : List (Nat × String))
  | abortUpload
  deriving DecidableEq, Repr

/-- Oracle for the remote side: outcome of the create call, of each part
upload (indexed by part number, yielding an ETag on success), of the
completion call and of the abort call.  `abortResult` is never consulted by
the model, mirroring `let _ = self.abort_multipart_upload(...)` in the
source, which discards the abort outcome. -/
structure Env where
  createResult : Except RError String
  partResult : Nat → Except RError String
  completeResult : Except RError Unit
  abortResult : Except RError Unit

/-- `MultipartUploadConfig` from client.rs: chunk size in bytes and a
concurrency hint (unused by the sequential loop). -/
structure MultipartUploadConfig where
  chunk_size : Nat
  concurrent_parts : Nat
  deriving DecidableEq, Repr

/-- The chunking performed by the read loop of `upload_file_multipart`:
each iteration allocates a buffer of `b = chunk_size.min(100 * 1024 * 1024)`
bytes, reads into it (a read of `min b remaining` bytes), truncates, and
stops on a zero-byte read.  `fuel` bounds the number of iterations; it is
instantiated with the file length, which suffices because every iteration
with a non-empty file and `b ≠ 0` consumes at least one byte.  With `b = 0`
the read into an empty buffer returns 0 at once and the loop stops with no
chunk, as in the source. -/
def readChunksAux (b : Nat) : Nat → List Nat → List (List Nat)
  | _, [] => []
  | 0, _ :: _ => []
  | fuel + 1, x :: rest =>
    if b = 0 then []
    else ((x :: rest).take b) :: readChunksAux b fuel ((x :: rest).drop b)

/-- The list of chunk payloads the loop of `upload_file_multipart` reads
from a file, in read order. -/
def readChunks (b : Nat) (file : List Nat) : List (List Nat) :=
  readChunksAux b file.length file

/-- The body of the upload loop of `upload_file_multipart`, one iteration
per chunk: issue `upload_part` with the incrementing part number `k`
(starting from the initial call's `1`); on success push `(k, etag)` and
continue; on the first failure issue a single best-effort abort (its result
is ignored) and return the part-upload error unchanged.  Returns the event
trace of the loop together with the collected completed parts or the
error. -/
def runParts (env : Env) : Nat → List (List Nat) → List Event × Except RError (List (Nat × String))
  | _, [] => ([], .ok [])
  | k, c :: cs =>
    match env.partResult k with
    | .ok etag =>
      let r := runParts env (k + 1) cs
      (Event.uploadPart k c :: r.1, r.2.map (fun ps => (k, etag) :: ps))
    | .error e => ([Event.uploadPart k c, Event.abortUpload], .error e)

/-- `R2Client::upload_file_multipart` (client.rs): create the upload
session, run the sequential read/upload loop over the file, and on success
of every part issue a single completion call listing the collected parts;
the overall result on that path is the completion call's result.  On a part
failure the loop has already issued the abort and the error is returned; no
completion call is issued.  Returns the full event trace and the result. -/
def upload_file_multipart (env : Env) (file : List Nat) (cfg : MultipartUploadConfig) :
    List Event × Except RError Unit :=
  match env.createResult with
  | .error e => ([Event.createUpload], .error e)
  | .ok _uploadId =>
    let b := min cfg.chunk_size (100 * 1024 * 1024)
    let r := runParts env 1 (readChunks b file)
    match r.2 with
    | .error e => (Event.createUpload :: r.1, .error e)
    | .ok parts =>
      (Event.createUpload :: (r.1 ++ [Event.completeUpload parts]), env.completeResult)

/-- The `(partNumber, body)` pairs of the `UploadPart` calls in a trace, in
issue order. -/
def partEvents (evs : List Event) : List (Nat × List Nat) :=
  evs.filterMap (fun ev =>
    match ev with
    | Event.uploadPart n b => some (n, b)
    | _ => none)

/-- Whether an event is an `AbortMultipartUpload` call. -/
def isAbortEv : Event → Bool
  | Event.abortUpload => true
  | _ => false

/-- Whether an event is a `CompleteMultipartUpload` call. -/
def isCompleteEv : Event → Bool
  | Event.completeUpload _ => true
  | _ => false

/-- `CloudflareConfig` from config.rs: account id, endpoint, and the two
optional authentication modes (API token, or the access-key pair). -/
structure CloudflareConfig where
  account_id : String
  endpoint : String
  api_token : Option String
  access_key_id : Option String
  secret_access_key : Option String
  deriving DecidableEq, Repr

/-- `R2Config` from config.rs. -/
structure R2Config where
  default_bucket : String
  region : String
  default_expiration : Nat
  deriving DecidableEq, Repr

/-- `ConfigFile` from config.rs, restricted to the `cloudflare` and `r2`
sections, the only ones `validate_config` reads (the optional
`advanced`/`logging`/`output` sections are never inspected by it). -/
structure ConfigFile where
  cloudflare : CloudflareConfig
  r2 : R2Config
  deriving DecidableEq, Repr

/-- `validate_config` from config.rs: reject an account id whose length is
not 32, then reject when neither the API token nor the complete access-key
pair is present, then reject an empty default bucket, then reject a default
expiration above 604800 seconds; otherwise accept. -/
def validate_config (config : ConfigFile) : Except RError Unit :=
  if config.cloudflare.account_id.length ≠ 32 then
    .error (.invalidInput ("Invalid Account ID format (expected 32 characters, got "
      ++ toString config.cloudflare.account_id.length ++ ")"))
  else
    let has_api_token := config.cloudflare.api_token.isSome
    let has_access_keys := config.cloudflare.access_key_id.isSome
      && config.cloudflare.secret_access_key.isSome
    if !has_api_token && !has_access_keys then
      .error (.config "No authentication method configured. Either api_token or access_key_id + secret_access_key must be set")
    else if config.r2.default_bucket.isEmpty then
      .error (.invalidInput "Bucket name cannot be empty")
    else if config.r2.default_expiration > 604800 then
      .error (.invalidInput "Default expiration cannot exceed 7 days (604800 seconds)")
    else
      .ok ()

/-- HTTP methods of presigned.rs. -/
inductive PresignedMethod where
  | get
  | put
  | delete
  deriving DecidableEq, Repr

/-- `PresignedUrlConfig` from presigned.rs (the `key` and `content_type`
fields are carried but never used by `generate_presigned_url`, which takes
the key as a separate argument and ignores the content type). -/
structure PresignedUrlConfig where
  method : PresignedMethod
  key : String
  expires_in : Nat
  content_type : Option String
  deriving DecidableEq, Repr

/-- `R2Client::generate_presigned_url` (client.rs), after the endpoint has
been parsed into a host: build `https://{host}/{bucket}/{key}`, compute
`expires = now + expires_in` from the current Unix time, and return the URL
with the single plain query parameter appended.  The client's stored
credentials (`access_key_id`, `secret_access_key`) are modelled as explicit
arguments to show they do not influence the output: no signature of any
kind is computed. -/
def client_generate_presigned_url (host bucket key : String)
    (_access_key_id _secret_access_key : String) (now expires_in : Nat) : String :=
  let url := "https://" ++ host ++ "/" ++ bucket ++ "/" ++ key
  let expires_timestamp := now + expires_in
  url ++ "?expires=" ++ toString expires_timestamp

/-- `generate_presigned_url` from presigned.rs, after the endpoint has been
parsed into a host: build `https://{host}/{bucket}/{key}`, append
`?method=PUT` or `?method=DELETE` for those methods (nothing for GET), and
then always append `&expires={now + expires_in}`. -/
def generate_presigned_url (host bucket key : String)
    (config : PresignedUrlConfig) (now : Nat) : String :=
  let url := "https://" ++ host ++ "/" ++ bucket ++ "/" ++ key
  let expires_timestamp := now + config.expires_in
  let url2 :=
    match config.method with
    | PresignedMethod.get => url
    | PresignedMethod.put => url ++ "?method=PUT"
    | PresignedMethod.delete => url ++ "?method=DELETE"
  url2 ++ "&expires=" ++ toString expires_timestamp

/-- `R2Client::delete_objects` (client.rs): call `delete_object` on each
key in list order, propagating the first error via `?` and never touching
the remaining keys.  The oracle `del` gives each `delete_object` call's
outcome; the first component returned is the list of keys for which a
`delete_object` call was actually issued, in issue order. -/
def delete_objects (del : String → Except RError Unit) :
    List String → List String × Except RError Unit
  | [] => ([], .ok ())
  | k :: ks =>
    match del k with
    | .ok _ =>
      let r := delete_objects del ks
      (k :: r.1, r.2)
    | .error e => ([k], .error e)

/-- A backend oracle on which every call succeeds. -/
def envAllOk : Env where
  createResult := .ok "upload-1"
  partResult := fun _ => .ok "etag"
  completeResult := .ok ()
  abortResult := .ok ()

/-- A backend oracle on which every part upload fails (and the abort call
itself also fails, exercising the best-effort abort). -/
def envPartFail : Env where
  createResult := .ok "upload-1"
  partResult := fun _ => .error (.r2Operation "part upload failed")
  completeResult := .ok ()
  abortResult := .error (.r2Operation "abort failed")

/-- A configuration that populates both authentication modes at once, with
every other field valid. -/
def cfgBoth : ConfigFile where
  cloudflare :=
    { account_id := "0123456789abcdef0123456789abcdef"
      endpoint := "https://test.r2.cloudflarestorage.com"
      api_token := some "test_token"
      access_key_id := some "test_key_id"
      secret_access_key := some "test_secret" }
  r2 :=
    { default_bucket := "test-bucket"
      region := "auto"
      default_expiration := 3600 }

/-- A token-only configuration whose default expiration sits exactly at the
7-day bound. -/
def cfgTokenMax : ConfigFile where
  cloudflare :=
    { account_id := "0123456789abcdef0123456789abcdef"
      endpoint := "https://test.r2.cloudflarestorage.com"
      api_token := some "test_token"
      access_key_id := none
      secret_access_key := none }
  r2 :=
    { default_bucket := "test-bucket"
      region := "auto"
      default_expiration := 604800 }

/-- A delete oracle that fails on key "b" and succeeds elsewhere. -/
def delOracle : String → Except RError Unit :=
  fun k => if k = "b" then .error (.r2Operation "delete failed") else .ok ()

/-! ### Helper lemmas about the read loop's chunking -/

theorem readChunksAux_join (b : Nat) (hb : b ≠ 0) :
    ∀ (fuel : Nat) (file : List Nat), file.length ≤ fuel →
      (readChunksAux b fuel file).flatten = file := by
  intro fuel
  induction fuel with
  | zero =>
    intro file h
    cases file with
    | nil => simp [readChunksAux]
    | cons x rest => simp at h
  | succ m ih =>
    intro file h
    cases file with
    | nil => simp [readChunksAux]
    | cons x rest =>
      have hd : ((x :: rest).drop b).length ≤ m := by
        simp only [List.length_drop, List.length_cons]
        simp only [List.length_cons] at h
        omega
      simp only [readChunksAux, if_neg hb, List.flatten]
      rw [ih _ hd, List.take_append_drop]

theorem readChunksAux_length (b : Nat) (hb : b ≠ 0) :
    ∀ (fuel : Nat) (file : List Nat), file.length ≤ fuel →
      (readChunksAux b fuel file).length = (file.length + b - 1) / b := by
  intro fuel
  induction fuel with
  | zero =>
    intro file h
    cases file with
    | nil =>
      simp only [readChunksAux, List.length_nil, List.length]
      rw [Nat.div_eq_of_lt (by omega)]
    | cons x rest => simp at h
  | succ m ih =>
    intro file h
    cases file with
    | nil =>
      simp only [readChunksAux, List.length_nil, List.length]
      rw [Nat.div_eq_of_lt (by omega)]
    | cons x rest =>
      have hd : ((x :: rest).drop b).length ≤ m := by
        simp only [List.length_drop, List.length_cons]
        simp only [List.length_cons] at h
        omega
      simp only [readChunksAux, if_neg hb, List.length_cons]
      rw [ih _ hd]
      simp only [List.length_drop, List.length_cons]
      rcases Nat.lt_or_ge (rest.length + 1) (b + 1) with hlt | hge
      · have h1 : rest.length + 1 - b = 0 := by omega
        have h2 : rest.length + 1 + b - 1 = (rest.length) + b := by omega
        rw [h1, h2, Nat.div_eq_of_lt (by omega), Nat.add_div_right _ (by omega),
          Nat.div_eq_of_lt (by omega)]
      · have h1 : rest.length + 1 - b + b - 1 = (rest.length - b) + b := by omega
        have h2 : rest.length + 1 + b - 1 = (rest.length - b) + b + b := by omega
        rw [h1, h2, Nat.add_div_right _ (by omega), Nat.add_div_right _ (by omega),
          Nat.add_div_right _ (by omega)]

theorem readChunksAux_mem (b : Nat) :
    ∀ (fuel : Nat) (file c : List Nat), c ∈ readChunksAux b fuel file →
      0 < c.length ∧ c.length ≤ b := by
  intro fuel
  induction fuel with
  | zero =>
    intro file c hc
    cases file <;> simp [readChunksAux] at hc
  | succ m ih =>
    intro file c hc
    cases file with
    | nil => simp [readChunksAux] at hc
    | cons x rest =>
      by_cases hb : b = 0
      · simp [readChunksAux, hb] at hc
      · simp only [readChunksAux, if_neg hb, List.mem_cons] at hc
        rcases hc with hc | hc
        · subst hc
          simp only [List.length_take, List.length_cons]
          omega
        · exact ih _ _ hc

theorem readChunks_join (b : Nat) (hb : b ≠ 0) (file : List Nat) :
    (readChunks b file).flatten = file :=
  readChunksAux_join b hb file.length file (Nat.le_refl _)

theorem readChunks_length (b : Nat) (hb : b ≠ 0) (file : List Nat) :
    (readChunks b file).length = (file.length + b - 1) / b :=
  readChunksAux_length b hb file.length file (Nat.le_refl _)

theorem readChunks_mem (b : Nat) (file c : List Nat) (hc : c ∈ readChunks b file) :
    0 < c.length ∧ c.length ≤ b :=
  readChunksAux_mem b file.length file c hc

/-! ### Helper lemmas about the upload loop -/

theorem partEvents_nil : partEvents [] = [] := rfl

theorem partEvents_cons_upload (n : Nat) (b : List Nat) (l : List Event) :
    partEvents (Event.uploadPart n b :: l) = (n, b) :: partEvents l := rfl

theorem partEvents_cons_create (l : List Event) :
    partEvents (Event.createUpload :: l) = partEvents l := rfl

theorem partEvents_cons_abort (l : List Event) :
    partEvents (Event.abortUpload :: l) = partEvents l := rfl

theorem partEvents_cons_complete (ps : List (Nat × String)) (l : List Event) :
    partEvents (Event.completeUpload ps :: l) = partEvents l := rfl

theorem partEvents_append (l₁ l₂ : List Event) :
    partEvents (l₁ ++ l₂) = partEvents l₁ ++ partEvents l₂ := by
  simp [partEvents, List.filterMap_append]

/-- When every part upload succeeds, the loop issues exactly one
`UploadPart` call per chunk, with bodies the chunks in order, consecutive
part numbers starting at `k`, and an `ok` result. -/
theorem runParts_ok_spec (env : Env) (hok : ∀ n, ∃ t, env.partResult n = .ok t) :
    ∀ (cs : List (List Nat)) (k : Nat),
      (partEvents (runParts env k cs).1).map Prod.snd = cs ∧
      (partEvents (runParts env k cs).1).map Prod.fst = List.range' k cs.length ∧
      ∃ ps, (runParts env k cs).2 = .ok ps := by
  intro cs
  induction cs with
  | nil =>
    intro k
    refine ⟨rfl, rfl, ⟨[], rfl⟩⟩
  | cons c cs ih =>
    intro k
    obtain ⟨t, ht⟩ := hok k
    obtain ⟨ih1, ih2, ps, ih3⟩ := ih (k + 1)
    simp only [runParts, ht]
    refine ⟨?_, ?_, ?_⟩
    · simp only [partEvents_cons_upload, List.map_cons, ih1]
    · simp only [partEvents_cons_upload, List.map_cons, ih2, List.length_cons,
        List.range'_succ]
    · exact ⟨(k, t) :: ps, by simp [ih3, Except.map]⟩

/-- The loop never issues a completion call. -/
theorem runParts_no_complete (env : Env) :
    ∀ (cs : List (List Nat)) (k : Nat),
      (runParts env k cs).1.countP isCompleteEv = 0 := by
  intro cs
  induction cs with
  | nil => intro k; rfl
  | cons c cs ih =>
    intro k
    cases ht : env.partResult k with
    | ok t =>
      simp only [runParts, ht]
      simp [List.countP_cons, isCompleteEv, ih (k + 1)]
    | error e =>
      simp only [runParts, ht]
      simp [List.countP_cons, isCompleteEv]

/-- When the loop result is `ok`, no abort call was issued. -/
theorem runParts_ok_no_abort (env : Env) :
    ∀ (cs : List (List Nat)) (k : Nat) (ps : List (Nat × String)),
      (runParts env k cs).2 = .ok ps → (runParts env k cs).1.countP isAbortEv = 0 := by
  intro cs
  induction cs with
  | nil => intro k ps _; rfl
  | cons c cs ih =>
    intro k ps h
    cases ht : env.partResult k with
    | ok t =>
      simp only [runParts, ht] at h ⊢
      cases hr : (runParts env (k + 1) cs).2 with
      | ok qs =>
        simp [List.countP_cons, isAbortEv, ih (k + 1) qs hr]
      | error e => simp [hr, Except.map] at h
    | error e =>
      simp [runParts, ht] at h

/-- When the loop result is an error, exactly one abort call was issued. -/
theorem runParts_error_one_abort (env : Env) :
    ∀ (cs : List (List Nat)) (k : Nat) (e : RError),
      (runParts env k cs).2 = .error e → (runParts env k cs).1.countP isAbortEv = 1 := by
  intro cs
  induction cs with
  | nil => intro k e h; simp [runParts] at h
  | cons c cs ih =>
    intro k e h
    cases ht : env.partResult k with
    | ok t =>
      simp only [runParts, ht] at h ⊢
      cases hr : (runParts env (k + 1) cs).2 with
      | ok qs => simp [hr, Except.map] at h
      | error e2 =>
        simp only [hr, Except.map, Except.error.injEq] at h
        subst h
        simp [List.countP_cons, isAbortEv, ih (k + 1) _ hr]
    | error e2 =>
      simp only [runParts, ht] at h ⊢
      cases h
      simp [List.countP_cons, isAbortEv]

/-- If an issued part upload failed, the loop result is exactly that
error. -/
theorem runParts_fail_result (env : Env) :
    ∀ (cs : List (List Nat)) (k j : Nat) (body : List Nat) (e : RError),
      Event.uploadPart j body ∈ (runParts env k cs).1 →
      env.partResult j = .error e →
      (runParts env k cs).2 = .error e := by
  intro cs
  induction cs with
  | nil => intro k j body e hmem _; simp [runParts] at hmem
  | cons c cs ih =>
    intro k j body e hmem hj
    cases ht : env.partResult k with
    | ok t =>
      simp only [runParts, ht, List.mem_cons] at hmem ⊢
      rcases hmem with hmem | hmem
      · cases hmem
        rw [hj] at ht
        cases ht
      · rw [ih (k + 1) j body e hmem hj]
        rfl
    | error e2 =>
      simp only [runParts, ht, List.mem_cons] at hmem ⊢
      rcases hmem with hmem | hmem
      · cases hmem
        rw [hj] at ht
        cases ht
        rfl
      · simp at hmem

/-- Every issued part body is one of the chunks. -/
theorem runParts_body_mem (env : Env) :
    ∀ (cs : List (List Nat)) (k j : Nat) (body : List Nat),
      Event.uploadPart j body ∈ (runParts env k cs).1 → body ∈ cs := by
  intro cs
  induction cs with
  | nil => intro k j body hmem; simp [runParts] at hmem
  | cons c cs ih =>
    intro k j body hmem
    cases ht : env.partResult k with
    | ok t =>
      simp only [runParts, ht, List.mem_cons] at hmem ⊢
      rcases hmem with hmem | hmem
      · cases hmem; exact Or.inl rfl
      · exact Or.inr (ih (k + 1) j body hmem)
    | error e =>
      simp only [runParts, ht, List.mem_cons] at hmem ⊢
      rcases hmem with hmem | hmem
      · cases hmem; exact Or.inl rfl
      · simp at hmem

/-- Shared characterisation of the `UploadPart` calls of a fully successful
multipart upload: their bodies are exactly the read chunks, in order, and
their part numbers are the consecutive integers starting at 1. -/
theorem multipart_ok_partEvents (env : Env) (file : List Nat)
    (cfg : MultipartUploadConfig) (uid : String)
    (hcr : env.createResult = .ok uid)
    (hok : ∀ n, ∃ t, env.partResult n = .ok t) :
    (partEvents (upload_file_multipart env file cfg).1).map Prod.snd
        = readChunks (min cfg.chunk_size (100 * 1024 * 1024)) file ∧
    (partEvents (upload_file_multipart env file cfg).1).map Prod.fst
        = List.range' 1 (readChunks (min cfg.chunk_size (100 * 1024 * 1024)) file).length := by
  obtain ⟨h1, h2, ps, h3⟩ :=
    runParts_ok_spec env hok (readChunks (min cfg.chunk_size (100 * 1024 * 1024)) file) 1
  have hevs : (upload_file_multipart env file cfg).1
      = Event.createUpload ::
        ((runParts env 1 (readChunks (min cfg.chunk_size (100 * 1024 * 1024)) file)).1
          ++ [Event.completeUpload ps]) := by
    simp only [upload_file_multipart, hcr, h3]
  rw [hevs, partEvents_cons_create, partEvents_append, partEvents_cons_complete,
    partEvents_nil, List.append_nil]
  exact ⟨h1, h2⟩

/-- C1: the claim is false as stated.  For the empty file (with a chunk
size of 5 bytes and a backend accepting every call), `upload_file_multipart`
does upload zero parts, but it still issues a `CompleteMultipartUpload` call
carrying an empty part list, and the overall result is `ok` — the client
reports no error of its own and does not skip the completion call. -/
theorem upload_file_multipart_empty_issues_completion :
    partEvents (upload_file_multipart envAllOk [] ⟨5, 5⟩).1 = [] ∧
    Event.completeUpload [] ∈ (upload_file_multipart envAllOk [] ⟨5, 5⟩).1 ∧
    (upload_file_multipart envAllOk [] ⟨5, 5⟩).2 = .ok () := by
  decide

/-- C1 (amended): for a zero-length input file, `upload_file_multipart`
uploads zero parts and then issues a completion call with an empty parts
list; the operation's result is exactly the completion call's result, so
any error comes from the server rejecting that zero-part completion, not
from the client skipping it. -/
theorem upload_file_multipart_empty_file (env : Env) (cfg : MultipartUploadConfig)
    (uid : String) (hcr : env.createResult = .ok uid) :
    partEvents (upload_file_multipart env [] cfg).1 = [] ∧
    Event.completeUpload [] ∈ (upload_file_multipart env [] cfg).1 ∧
    (upload_file_multipart env [] cfg).2 = env.completeResult := by
  have hevs : upload_file_multipart env [] cfg
      = ([Event.createUpload, Event.completeUpload []], env.completeResult) := by
    simp only [upload_file_multipart, hcr, readChunks, runParts, List.length_nil,
      readChunksAux]
    rfl
  rw [hevs]
  exact ⟨rfl, by simp, rfl⟩

/-- C1 (amended) witness at a concrete environment and configuration. -/
theorem upload_file_multipart_empty_file_witness :
    partEvents (upload_file_multipart envAllOk [] ⟨7, 3⟩).1 = [] ∧
    Event.completeUpload [] ∈ (upload_file_multipart envAllOk [] ⟨7, 3⟩).1 ∧
    (upload_file_multipart envAllOk [] ⟨7, 3⟩).2 = envAllOk.completeResult :=
  upload_file_multipart_empty_file envAllOk ⟨7, 3⟩ "upload-1" rfl

/-- C2: the claim is false as stated.  For a file of
N = 104857601 bytes (100 MiB + 1) and configured chunk size
C = 104857601, ceil(N/C) = 1, but the loop clamps its read buffer to
100 MiB and therefore uploads 2 parts. -/
theorem upload_file_multipart_count_counterexample :
    (partEvents (upload_file_multipart envAllOk
        (List.replicate 104857601 0) ⟨104857601, 5⟩).1).length
      ≠ (104857601 + 104857601 - 1) / 104857601 := by
  obtain ⟨h1, _⟩ := multipart_ok_partEvents envAllOk (List.replicate 104857601 0)
    ⟨104857601, 5⟩ "upload-1" rfl (fun _ => ⟨"etag", rfl⟩)
  have hlen := congrArg List.length h1
  rw [List.length_map] at hlen
  rw [hlen, readChunks_length _ (by decide) _, List.length_replicate]
  decide

/-- C2 (amended): for every file and every configured chunk size C > 0,
with B = min(C, 100 MiB) the clamped per-read buffer size,
`upload_file_multipart` (when the session opens and every part upload
succeeds) uploads exactly ceil(N/B) parts, and their part numbers are
exactly 1, 2, ..., ceil(N/B) in upload order, with no gaps and no
duplicates. -/
theorem upload_file_multipart_part_numbers (env : Env) (file : List Nat)
    (cfg : MultipartUploadConfig) (uid : String)
    (hC : 0 < cfg.chunk_size)
    (hcr : env.createResult = .ok uid)
    (hok : ∀ n, ∃ t, env.partResult n = .ok t) :
    (partEvents (upload_file_multipart env file cfg).1).length
        = (file.length + min cfg.chunk_size (100 * 1024 * 1024) - 1)
            / min cfg.chunk_size (100 * 1024 * 1024) ∧
    (partEvents (upload_file_multipart env file cfg).1).map Prod.fst
        = List.range' 1 ((file.length + min cfg.chunk_size (100 * 1024 * 1024) - 1)
            / min cfg.chunk_size (100 * 1024 * 1024)) := by
  obtain ⟨h1, h2⟩ := multipart_ok_partEvents env file cfg uid hcr hok
  have hb : min cfg.chunk_size (100 * 1024 * 1024) ≠ 0 := by omega
  have hlen := congrArg List.length h1
  rw [List.length_map] at hlen
  rw [readChunks_length _ hb] at hlen h2
  exact ⟨hlen, h2⟩

/-- C2 (amended) witness: a 5-byte file with chunk size 2 yields 3 parts
numbered 1, 2, 3. -/
theorem upload_file_multipart_part_numbers_witness :
    (partEvents (upload_file_multipart envAllOk [1, 2, 3, 4, 5] ⟨2, 5⟩).1).length
        = (([1, 2, 3, 4, 5] : List Nat).length + min 2 (100 * 1024 * 1024) - 1)
            / min 2 (100 * 1024 * 1024) ∧
    (partEvents (upload_file_multipart envAllOk [1, 2, 3, 4, 5] ⟨2, 5⟩).1).map Prod.fst
        = List.range' 1 ((([1, 2, 3, 4, 5] : List Nat).length + min 2 (100 * 1024 * 1024) - 1)
            / min 2 (100 * 1024 * 1024)) :=
  upload_file_multipart_part_numbers envAllOk [1, 2, 3, 4, 5] ⟨2, 5⟩ "upload-1"
    (by decide) rfl (fun _ => ⟨"etag", rfl⟩)

/-- C4: for every file and every chunk size C > 0, when the session opens
and every part upload succeeds, concatenating the bodies passed to
`upload_part` in part-number (= upload) order reproduces the original file
bytes exactly. -/
theorem upload_file_multipart_concat (env : Env) (file : List Nat)
    (cfg : MultipartUploadConfig) (uid : String)
    (hC : 0 < cfg.chunk_size)
    (hcr : env.createResult = .ok uid)
    (hok : ∀ n, ∃ t, env.partResult n = .ok t) :
    ((partEvents (upload_file_multipart env file cfg).1).map Prod.snd).flatten = file := by
  obtain ⟨h1, _⟩ := multipart_ok_partEvents env file cfg uid hcr hok
  have hb : min cfg.chunk_size (100 * 1024 * 1024) ≠ 0 := by omega
  rw [h1, readChunks_join _ hb]

/-- C4 witness: the three chunk bodies of a 5-byte file with chunk size 2
concatenate back to the file. -/
theorem upload_file_multipart_concat_witness :
    ((partEvents (upload_file_multipart envAllOk [1, 2, 3, 4, 5] ⟨2, 5⟩).1).map
      Prod.snd).flatten = [1, 2, 3, 4, 5] :=
  upload_file_multipart_concat envAllOk [1, 2, 3, 4, 5] ⟨2, 5⟩ "upload-1"
    (by decide) rfl (fun _ => ⟨"etag", rfl⟩)

/-- C3: in every execution of `upload_file_multipart` in which some issued
`upload_part` call fails, the original part-upload error is returned to the
caller unchanged, no `CompleteMultipartUpload` call is issued, and exactly
one `AbortMultipartUpload` call is issued.  The environment's
`abortResult` is universally quantified and never consulted, so a failure
of the abort call itself is swallowed. -/
theorem upload_file_multipart_abort_on_failure (env : Env) (file : List Nat)
    (cfg : MultipartUploadConfig) (j : Nat) (body : List Nat) (e : RError)
    (hmem : Event.uploadPart j body ∈ (upload_file_multipart env file cfg).1)
    (hfail : env.partResult j = .error e) :
    (upload_file_multipart env file cfg).2 = .error e ∧
    (upload_file_multipart env file cfg).1.countP isCompleteEv = 0 ∧
    (upload_file_multipart env file cfg).1.countP isAbortEv = 1 := by
  cases hcr : env.createResult with
  | error e0 =>
    rw [upload_file_multipart] at hmem
    simp [hcr] at hmem
  | ok uid =>
    cases hres : (runParts env 1
        (readChunks (min cfg.chunk_size (100 * 1024 * 1024)) file)).2 with
    | ok ps =>
      exfalso
      have hmem' : Event.uploadPart j body ∈ (runParts env 1
          (readChunks (min cfg.chunk_size (100 * 1024 * 1024)) file)).1 := by
        rw [upload_file_multipart] at hmem
        simp only [hcr, hres] at hmem
        simpa using hmem
      have := runParts_fail_result env _ 1 j body e hmem' hfail
      rw [hres] at this
      cases this
    | error e2 =>
      have hevs : upload_file_multipart env file cfg
          = (Event.createUpload :: (runParts env 1
              (readChunks (min cfg.chunk_size (100 * 1024 * 1024)) file)).1,
             .error e2) := by
        simp only [upload_file_multipart, hcr, hres]
      have hmem' : Event.uploadPart j body ∈ (runParts env 1
          (readChunks (min cfg.chunk_size (100 * 1024 * 1024)) file)).1 := by
        rw [hevs] at hmem
        simpa using hmem
      have heq := runParts_fail_result env _ 1 j body e hmem' hfail
      rw [hres] at heq
      cases heq
      have h0 := runParts_no_complete env
        (readChunks (min cfg.chunk_size (100 * 1024 * 1024)) file) 1
      have h1 := runParts_error_one_abort env
        (readChunks (min cfg.chunk_size (100 * 1024 * 1024)) file) 1 e hres
      refine ⟨by rw [hevs], ?_, ?_⟩
      · rw [hevs]
        simp [List.countP_cons, isCompleteEv, h0]
      · rw [hevs]
        simp [List.countP_cons, isAbortEv, h1]

/-- C3 witness: with a backend failing every part upload and whose abort
call itself fails, a 3-byte file with chunk size 2 yields the part error,
no completion call, and exactly one abort call. -/
theorem upload_file_multipart_abort_on_failure_witness :
    (upload_file_multipart envPartFail [1, 2, 3] ⟨2, 5⟩).2
        = .error (.r2Operation "part upload failed") ∧
    (upload_file_multipart envPartFail [1, 2, 3] ⟨2, 5⟩).1.countP isCompleteEv = 0 ∧
    (upload_file_multipart envPartFail [1, 2, 3] ⟨2, 5⟩).1.countP isAbortEv = 1 :=
  upload_file_multipart_abort_on_failure envPartFail [1, 2, 3] ⟨2, 5⟩ 1 [1, 2]
    (.r2Operation "part upload failed") (by decide) rfl

/-- C7: every part body passed to `upload_part` by `upload_file_multipart`
is non-empty and has size at most min(configured chunk size, 100 MiB): the
read buffer is clamped to a hard 100 MiB per-call maximum, and the loop
stops on a zero-byte read instead of uploading an empty final part. -/
theorem upload_file_multipart_body_bounds (env : Env) (file : List Nat)
    (cfg : MultipartUploadConfig) (n : Nat) (body : List Nat)
    (hmem : Event.uploadPart n body ∈ (upload_file_multipart env file cfg).1) :
    0 < body.length ∧ body.length ≤ min cfg.chunk_size (100 * 1024 * 1024) := by
  cases hcr : env.createResult with
  | error e0 =>
    rw [upload_file_multipart] at hmem
    simp [hcr] at hmem
  | ok uid =>
    have hmem' : Event.uploadPart n body ∈ (runParts env 1
        (readChunks (min cfg.chunk_size (100 * 1024 * 1024)) file)).1 := by
      rw [upload_file_multipart] at hmem
      cases hres : (runParts env 1
          (readChunks (min cfg.chunk_size (100 * 1024 * 1024)) file)).2 with
      | ok ps =>
        simp only [hcr, hres] at hmem
        simpa using hmem
      | error e2 =>
        simp only [hcr, hres] at hmem
        simpa using hmem
    exact readChunks_mem _ file body
      (runParts_body_mem env _ 1 n body hmem')

/-- C7 witness: the first part body of a 3-byte file with chunk size 2 is
non-empty and within the clamped bound. -/
theorem upload_file_multipart_body_bounds_witness :
    0 < ([1, 2] : List Nat).length ∧
    ([1, 2] : List Nat).length ≤ min 2 (100 * 1024 * 1024) :=
  upload_file_multipart_body_bounds envAllOk [1, 2, 3] ⟨2, 5⟩ 1 [1, 2] (by decide)

/-- C5: the claim is false as stated.  `cfgBoth` populates both the bearer
token and the complete access-key pair simultaneously, yet
`validate_config` accepts it instead of returning an error: the code only
rejects when neither mode is present. -/
theorem validate_config_accepts_both_modes :
    cfgBoth.cloudflare.api_token.isSome = true ∧
    cfgBoth.cloudflare.access_key_id.isSome = true ∧
    cfgBoth.cloudflare.secret_access_key.isSome = true ∧
    validate_config cfgBoth = .ok () := by
  decide

/-- C5 (amended): with the other fields valid, `validate_config` accepts a
configuration if and only if at least one authentication mode is populated
(the bearer token, or the complete access-key pair); it returns an error
when neither is set, but a configuration with both set simultaneously is
accepted, not rejected. -/
theorem validate_config_auth_check (c : ConfigFile)
    (hacct : c.cloudflare.account_id.length = 32)
    (hbkt : c.r2.default_bucket.isEmpty = false)
    (hexp : c.r2.default_expiration ≤ 604800) :
    (validate_config c = .ok ()) ↔
      (c.cloudflare.api_token.isSome = true ∨
        (c.cloudflare.access_key_id.isSome = true ∧
         c.cloudflare.secret_access_key.isSome = true)) := by
  rw [validate_config]
  rw [if_neg (by omega)]
  by_cases htok : c.cloudflare.api_token.isSome = true <;>
    by_cases hak : c.cloudflare.access_key_id.isSome = true <;>
      by_cases hsk : c.cloudflare.secret_access_key.isSome = true <;>
        simp [htok, hak, hsk, hbkt, Nat.not_lt.mpr hexp]

/-- C5 (amended) witness at the both-modes configuration. -/
theorem validate_config_auth_check_witness :
    (validate_config cfgBoth = .ok ()) ↔
      (cfgBoth.cloudflare.api_token.isSome = true ∨
        (cfgBoth.cloudflare.access_key_id.isSome = true ∧
         cfgBoth.cloudflare.secret_access_key.isSome = true)) :=
  validate_config_auth_check cfgBoth (by decide) (by decide) (by decide)

/-- C6: for every configuration with a populated authentication mode,
`validate_config` returns Ok if and only if the account id is exactly 32
characters long, the default bucket name is non-empty, and the default
expiration is at most 604800 seconds; in particular 604800 is accepted and
604801 is rejected. -/
theorem validate_config_ok_iff (c : ConfigFile)
    (hauth : c.cloudflare.api_token.isSome = true ∨
      (c.cloudflare.access_key_id.isSome = true ∧
       c.cloudflare.secret_access_key.isSome = true)) :
    (validate_config c = .ok ()) ↔
      (c.cloudflare.account_id.length = 32 ∧
       c.r2.default_bucket.isEmpty = false ∧
       c.r2.default_expiration ≤ 604800) := by
  rw [validate_config]
  by_cases hacct : c.cloudflare.account_id.length = 32
  · rw [if_neg (by omega)]
    have hb : (!c.cloudflare.api_token.isSome &&
        !(c.cloudflare.access_key_id.isSome && c.cloudflare.secret_access_key.isSome))
          = false := by
      rcases hauth with h | ⟨h1, h2⟩
      · simp [h]
      · simp [h1, h2]
    simp only [hb, Bool.false_eq_true, if_false]
    by_cases hbkt : c.r2.default_bucket.isEmpty <;>
      by_cases hexp : c.r2.default_expiration > 604800 <;>
        simp [hbkt, hexp, hacct] <;> omega
  · rw [if_pos (by omega)]
    simp [hacct]

/-- C6 witness: a token-only configuration with expiration exactly 604800
is accepted. -/
theorem validate_config_ok_iff_witness :
    (validate_config cfgTokenMax = .ok ()) ↔
      (cfgTokenMax.cloudflare.account_id.length = 32 ∧
       cfgTokenMax.r2.default_bucket.isEmpty = false ∧
       cfgTokenMax.r2.default_expiration ≤ 604800) :=
  validate_config_ok_iff cfgTokenMax (Or.inl rfl)

/-- C8: for every key and expiry, the client's presigned-URL generation
performs no AWS SigV4 signing: it returns exactly the direct object URL
`https://{host}/{bucket}/{key}` with the single plain query parameter
`expires = now + expiry` appended, and the output is entirely independent
of the stored credentials, so it contains no signature component. -/
theorem client_presigned_url_plain (host bucket key ak sk ak2 sk2 : String)
    (now expires_in : Nat) :
    client_generate_presigned_url host bucket key ak sk now expires_in
        = "https://" ++ host ++ "/" ++ bucket ++ "/" ++ key ++ "?expires="
            ++ toString (now + expires_in) ∧
    client_generate_presigned_url host bucket key ak2 sk2 now expires_in
        = client_generate_presigned_url host bucket key ak sk now expires_in := by
  constructor
  · simp [client_generate_presigned_url, String.append_assoc]
  · rfl

theorem put_literal_merge (s : String) :
    ("?method=PUT" : String) ++ ("&expires=" ++ s) = "?method=PUT&expires=" ++ s := by
  rw [← String.append_assoc]
  congr 1

theorem delete_literal_merge (s : String) :
    ("?method=DELETE" : String) ++ ("&expires=" ++ s) = "?method=DELETE&expires=" ++ s := by
  rw [← String.append_assoc]
  congr 1

/-- C9: for every host, bucket and key, `generate_presigned_url` from
presigned.rs returns for GET the URL
`https://{host}/{bucket}/{key}&expires={now + expiry}` — the expires
parameter is joined with '&' even though no '?' was ever appended — while
for PUT and DELETE it returns the URL with `?method=PUT&expires={...}` or
`?method=DELETE&expires={...}` respectively. -/
theorem generate_presigned_url_shapes (host bucket key pkey : String)
    (expires_in now : Nat) (ct : Option String) :
    generate_presigned_url host bucket key ⟨.get, pkey, expires_in, ct⟩ now
        = "https://" ++ host ++ "/" ++ bucket ++ "/" ++ key ++ "&expires="
            ++ toString (now + expires_in) ∧
    generate_presigned_url host bucket key ⟨.put, pkey, expires_in, ct⟩ now
        = "https://" ++ host ++ "/" ++ bucket ++ "/" ++ key ++ "?method=PUT&expires="
            ++ toString (now + expires_in) ∧
    generate_presigned_url host bucket key ⟨.delete, pkey, expires_in, ct⟩ now
        = "https://" ++ host ++ "/" ++ bucket ++ "/" ++ key ++ "?method=DELETE&expires="
            ++ toString (now + expires_in) := by
  refine ⟨?_, ?_, ?_⟩ <;>
    simp [generate_presigned_url, String.append_assoc, put_literal_merge,
      delete_literal_merge]

/-- C10: `delete_objects` attempts the given keys strictly in list order,
one `delete_object` call at a time; when every key before `kf` succeeds and
the delete of `kf` fails, the calls issued are exactly the prefix up to and
including `kf` (so the earlier keys have already been deleted and nothing
restores them — the operation is not atomic), none of the remaining keys is
attempted, and the failing call's error is returned. -/
theorem delete_objects_stops_at_first_error (del : String → Except RError Unit)
    (pre post : List String) (kf : String) (e : RError)
    (hok : ∀ k ∈ pre, del k = .ok ())
    (hfail : del kf = .error e) :
    (delete_objects del (pre ++ kf :: post)).1 = pre ++ [kf] ∧
    (delete_objects del (pre ++ kf :: post)).2 = .error e := by
  induction pre with
  | nil => simp [delete_objects, hfail]
  | cons p pre ih =>
    have hp : del p = .ok () := hok p (List.mem_cons_self p pre)
    obtain ⟨ih1, ih2⟩ := ih (fun k hk => hok k (List.mem_cons_of_mem p hk))
    simp only [List.cons_append, delete_objects, hp]
    simp [ih1, ih2]

/-- C10 witness: deleting ["a", "b", "c"] with an oracle failing on "b"
attempts exactly ["a", "b"] and returns the delete error. -/
theorem delete_objects_stops_at_first_error_witness :
    (delete_objects delOracle (["a"] ++ "b" :: ["c"])).1 = ["a"] ++ ["b"] ∧
    (delete_objects delOracle (["a"] ++ "b" :: ["c"])).2
        = .error (.r2Operation "delete failed") :=
  delete_objects_stops_at_first_error delOracle ["a"] ["c"] "b"
    (.r2Operation "delete failed") (by decide) (by decide)

end R2Pilot
